import Mathlib

-- Formal model of the Latte editor's session / persistence / render engine
-- (src/main.js), together with theorems checking the specification's claims.
--
-- Modelling conventions:
--  * The JS global mutable state (`files`, `currentFileId`, the CodeMirror
--    editor buffer, and `localStorage`) is packaged into one explicit record,
--    `AppState`; every source function becomes a pure state transformer.
--  * `localStorage` is modelled by `Storage`: a `writable` flag (false models
--    a medium that rejects writes: quota exceeded / unavailable, e.g. the
--    `catch` branches of `saveFiles` / `saveCurrentId`), the serialized
--    `files` record, and the serialized current-id record.  A serialized
--    files record is a `Blob`: either a parseable document list (`Blob.ok`)
--    or an unparseable/corrupted string (`Blob.bad`, on which `JSON.parse`
--    throws and the `catch` branch of `loadFiles` runs).
--  * JS truthiness on the id strings (`if (currentFileId)`, `raw ? _ : _`,
--    `|| null`) is modelled exactly: `none` and the empty string are falsy.

-- ── Data model ───────────────────────────────────────────────────────

-- A document record, as stored in the `files` array of src/main.js.
-- `folder` is `Option String` because a record loaded from a persisted blob
-- may lack the field entirely (the code reads it as `file.folder || ''`).
structure File where
  id : String
  name : String
  folder : Option String
  content : String
deriving DecidableEq

-- A persisted serialization of the files array: `JSON.parse` either yields
-- the document list back or throws on a corrupted string.
inductive Blob where
  | ok (fs : List File)
  | bad
deriving DecidableEq

-- The localStorage medium: two records (`latte_files_v1`, `latte_current_v1`)
-- plus a flag saying whether writes are accepted.
structure Storage where
  writable : Bool
  filesBlob : Option Blob
  currentBlob : Option String
deriving DecidableEq

def Storage.setFilesBlob (s : Storage) (fs : List File) : Storage :=
  if s.writable then { s with filesBlob := some (Blob.ok fs) } else s

def Storage.setCurrentBlob (s : Storage) (id : String) : Storage :=
  if s.writable then { s with currentBlob := some id } else s

def Storage.removeCurrentBlob (s : Storage) : Storage :=
  if s.writable then { s with currentBlob := none } else s

-- The whole mutable state of the module: the in-memory collection, the
-- current-document reference, the editor buffer (`view.state.doc`), and
-- the backing medium.
structure AppState where
  files : List File
  currentFileId : Option String
  editor : String
  storage : Storage
deriving DecidableEq

-- ── File system (localStorage) layer: loadFiles / saveFiles / saveCurrentId ──

-- `loadFiles` of src/main.js: two independent try/catch blocks.  A corrupted
-- files blob makes `JSON.parse` throw, caught as `files = []`; the current-id
-- record is read separately and `|| null` maps the empty string to null.
def loadFiles (s : Storage) : List File × Option String :=
  (match s.filesBlob with
   | some (Blob.ok fs) => fs
   | some Blob.bad => []
   | none => [],
   match s.currentBlob with
   | some id => if id = "" then none else some id
   | none => none)

-- `saveFiles` of src/main.js: serialize the collection into the medium;
-- a rejected write is swallowed by the catch and changes nothing.
def saveFiles (st : AppState) : AppState :=
  { st with storage := st.storage.setFilesBlob st.files }

-- `saveCurrentId` of src/main.js: `if (currentFileId)` is JS truthiness,
-- so both null and the empty string take the removeItem branch.
def saveCurrentId (st : AppState) : AppState :=
  match st.currentFileId with
  | some id =>
    if id = "" then { st with storage := st.storage.removeCurrentBlob }
    else { st with storage := st.storage.setCurrentBlob id }
  | none => { st with storage := st.storage.removeCurrentBlob }

-- ── Document index operations ────────────────────────────────────────

-- `files.find(f => f.id === id)`.
def findFile (files : List File) (id : String) : Option File :=
  files.find? (fun f => f.id == id)

-- `file.content = src` on the file object returned by `files.find`:
-- mutates the first record with the given id, in place.
def updateFirst : List File → String → String → List File
  | [], _, _ => []
  | f :: rest, id, c =>
    if f.id = id then { f with content := c } :: rest
    else f :: updateFirst rest id c

-- ── Auto-save (src/main.js lines 259-273) ────────────────────────────

-- `autoSave(src)`: `if (!currentFileId) return` is truthiness (null or "").
def autoSave (src : String) (st : AppState) : AppState :=
  match st.currentFileId with
  | none => st
  | some cid =>
    if cid = "" then st
    else
      match findFile st.files cid with
      | some _ => saveFiles { st with files := updateFirst st.files cid src }
      | none => st

-- One editor change followed by its (debounced) auto-save firing: the update
-- listener puts the new full text in the editor buffer, then `autoSave` runs
-- on that snapshot.
def editStep (st : AppState) (src : String) : AppState :=
  autoSave src { st with editor := src }

-- ── openFile (src/main.js lines 351-375) ─────────────────────────────

-- The "save the current file first" prologue of `openFile`: guarded by JS
-- truthiness of `currentFileId`, it writes the editor buffer into the
-- current record and persists, before the target id is even looked up.
def flushCurrent (st : AppState) : AppState :=
  match st.currentFileId with
  | none => st
  | some cid =>
    if cid = "" then st
    else
      match findFile st.files cid with
      | some _ => saveFiles { st with files := updateFirst st.files cid st.editor }
      | none => st

-- `openFile(id)`: flush the outgoing document, then look up `id`; if absent,
-- return (`if (!file) return`); otherwise make it current, persist the
-- current id, and load its content into the editor.
def openFile (st : AppState) (id : String) : AppState :=
  let st1 := flushCurrent st
  match findFile st1.files id with
  | none => st1
  | some file =>
    let st2 := saveCurrentId { st1 with currentFileId := some file.id }
    { st2 with editor := file.content }

-- ── JS string trim ───────────────────────────────────────────────────

-- `String.prototype.trim()`: strips WhiteSpace and LineTerminator code
-- points from both ends.
def isJsSpace (c : Char) : Bool :=
  c = ' ' || c = '\t' || c = '\n' || c = '\r' ||
  c = '\x0b' || c = '\x0c' || c = '\u00A0' || c = '\u2028' || c = '\u2029' || c = '\uFEFF'

def jsTrim (s : String) : String :=
  String.mk (((s.data.dropWhile isJsSpace).reverse.dropWhile isJsSpace).reverse)

-- ── Object.prototype property names ──────────────────────────────────

-- Property names every plain object literal inherits from
-- `Object.prototype`.  Reading such a property on an object that does not
-- shadow it with an own property walks the prototype chain and yields the
-- inherited member — a function, or the prototype object itself for
-- `__proto__` — which is truthy and is not a string.
def PROTO_KEYS : List String :=
  ["constructor", "hasOwnProperty", "isPrototypeOf", "propertyIsEnumerable",
   "toLocaleString", "toString", "valueOf", "__proto__",
   "__defineGetter__", "__defineSetter__", "__lookupGetter__", "__lookupSetter__"]

def isProtoKey (k : String) : Bool := PROTO_KEYS.contains k

-- ── Templates (src/main.js lines 11-95) ──────────────────────────────

def DEFAULT_DOC : String :=
  "\\documentclass\x7barticle\x7d\n\n" ++
  "\\title\x7bLatte\x7d\n" ++
  "\\author\x7b\x7d\n" ++
  "\\date\x7b\x7d\n\n" ++
  "\\begin\x7bdocument\x7d\n\n" ++
  "\\maketitle\n\n" ++
  "Welcome to \\textbf\x7bLatte\x7d — a high-quality \\LaTeX\x7b\x7d editor.\n\n" ++
  "\\section\x7bIntroduction\x7d\n" ++
  "Start writing your document here. The preview on the right\n" ++
  "updates automatically as you type.\n\n" ++
  "\\section\x7bMathematics\x7d\n" ++
  "Inline math: $E = mc^2$\n\n" ++
  "Display math:\n" ++
  "\\[\n" ++
  "  \\int_\x7b-\\infty\x7d^\x7b\\infty\x7d e^\x7b-x^2\x7d\\, dx = \\sqrt\x7b\\pi\x7d\n" ++
  "\\]\n\n" ++
  "\\end\x7bdocument\x7d"

def TEMPLATE_blank : String :=
  "\\documentclass\x7barticle\x7d\n\n" ++
  "\\begin\x7bdocument\x7d\n\n\n\n" ++
  "\\end\x7bdocument\x7d"

def TEMPLATE_article : String := DEFAULT_DOC

def TEMPLATE_math : String :=
  "\\documentclass\x7barticle\x7d\n" ++
  "\\usepackage\x7bamsmath\x7d\n" ++
  "\\usepackage\x7bamssymb\x7d\n\n" ++
  "\\title\x7bMathematics\x7d\n" ++
  "\\date\x7b\x7d\n\n" ++
  "\\begin\x7bdocument\x7d\n\n" ++
  "\\maketitle\n\n" ++
  "\\section\x7bCalculus\x7d\n\n" ++
  "The fundamental theorem of calculus:\n" ++
  "\\[\n" ++
  "  \\int_a^b f\x27(x)\\,dx = f(b) - f(a)\n" ++
  "\\]\n\n" ++
  "\\section\x7bAlgebra\x7d\n\n" ++
  "The quadratic formula: $x = \\dfrac\x7b-b \\pm \\sqrt\x7bb^2 - 4ac\x7d\x7d\x7b2a\x7d$\n\n" ++
  "\\section\x7bSeries\x7d\n\n" ++
  "Euler\x27s identity: $e^\x7bi\\pi\x7d + 1 = 0$\n\n" ++
  "Taylor series: $e^x = \\sum_\x7bn=0\x7d^\x7b\\infty\x7d \\dfrac\x7bx^n\x7d\x7bn!\x7d$\n\n" ++
  "\\end\x7bdocument\x7d"

def TEMPLATE_letter : String :=
  "\\documentclass\x7bletter\x7d\n\n" ++
  "\\begin\x7bdocument\x7d\n\n" ++
  "\\begin\x7bletter\x7d\x7bRecipient Name\\\\Street Address\\\\City, Country\x7d\n\n" ++
  "\\opening\x7bDear Sir or Madam,\x7d\n\n" ++
  "I am writing to you regarding the matter discussed previously.\n" ++
  "Please find my thoughts enclosed herein.\n\n" ++
  "\\closing\x7bSincerely,\x7d\n\n" ++
  "\\end\x7bletter\x7d\n\n" ++
  "\\end\x7bdocument\x7d"

-- The TEMPLATES registry object: four named starter contents.
def TEMPLATES (key : String) : Option String :=
  match key with
  | "blank" => some TEMPLATE_blank
  | "article" => some TEMPLATE_article
  | "math" => some TEMPLATE_math
  | "letter" => some TEMPLATE_letter
  | _ => none

-- Value of the JS expression `TEMPLATES[templateKey] || TEMPLATES.blank`.
-- An own registry entry is a truthy string and is kept (a hypothetical
-- empty entry is falsy and falls back to the blank template); a key absent
-- from the registry normally reads as `undefined` (falsy) and falls back
-- to the blank template — but a key naming an `Object.prototype` member
-- resolves through the prototype chain to that inherited member, which is
-- truthy, so `||` keeps it: the resolved value is then not a string at all.
inductive TemplateValue where
  | str (s : String)
  | protoValue (name : String)
deriving DecidableEq

def resolveTemplate (key : String) : TemplateValue :=
  match TEMPLATES key with
  | some c => if c = "" then TemplateValue.str TEMPLATE_blank else TemplateValue.str c
  | none =>
    if isProtoKey key then TemplateValue.protoValue key
    else TemplateValue.str TEMPLATE_blank

-- ── createFile (src/main.js lines 378-390) ───────────────────────────

-- `createFile(name, folder, templateKey)`.  The generated id
-- (`generateId()`, a time-plus-random string) is passed in explicitly as
-- `newId`, making the nondeterministic generator a parameter.  When
-- `templateKey` names an `Object.prototype` member, the resolved content
-- is the inherited non-string member: the document the code then builds
-- has a non-string `content` field, which the string-typed Document data
-- model cannot represent — the model returns `none` exactly there.
def createFile (st : AppState) (newId name folder templateKey : String) :
    Option AppState :=
  match resolveTemplate templateKey with
  | TemplateValue.protoValue _ => none
  | TemplateValue.str content =>
    let file : File :=
      { id := newId
        name := if jsTrim name = "" then "Untitled" else jsTrim name
        folder := some (jsTrim folder)
        content := content }
    some (openFile (saveFiles { st with files := st.files ++ [file] }) file.id)

-- ── Render pipeline: debounced scheduling (src/main.js lines 190-194) ─

-- `setTimeout(() => renderLatex(src), 450)` / `clearTimeout(renderTimer)`,
-- modelled over discrete millisecond time.  `timer` is the pending timeout
-- (deadline, captured source); `compiled` records, in order, every source
-- that was actually handed to the compile-and-render step.
def DEBOUNCE_MS : Nat := 450

structure RenderSched where
  timer : Option (Nat × String)
  compiled : List String
deriving DecidableEq

-- Advance time to `now`: a pending timeout whose deadline has been reached
-- fires, handing its captured source to `renderLatex`.
def fireDue (st : RenderSched) (now : Nat) : RenderSched :=
  match st.timer with
  | some ds => if ds.1 ≤ now then { timer := none, compiled := st.compiled ++ [ds.2] } else st
  | none => st

-- `scheduleRender(src)` called at time `now`: any timeout due strictly
-- before the call has already fired; a still-pending timeout is cleared
-- (its source is never compiled) and a fresh 450 ms timeout is armed.
def scheduleRender (st : RenderSched) (now : Nat) (src : String) : RenderSched :=
  { timer := some (now + DEBOUNCE_MS, src), compiled := (fireDue st now).compiled }

def runSched (st : RenderSched) : List (Nat × String) → RenderSched
  | [] => st
  | c :: cs => runSched (scheduleRender st c.1 c.2) cs

-- Let the quiet period elapse with no further calls: the pending timeout,
-- if any, fires.
def finishSched (st : RenderSched) : RenderSched :=
  match st.timer with
  | some ds => { timer := none, compiled := st.compiled ++ [ds.2] }
  | none => st

def initSched : RenderSched := { timer := none, compiled := [] }

-- Last element of a nonempty call sequence.
def lastCall (c : Nat × String) : List (Nat × String) → Nat × String
  | [] => c
  | c2 :: cs => lastCall c2 cs

-- ── Render pipeline: applying a compile result (src/main.js lines 149-187) ─

-- The error object raised by the external compiler: `err.message` may be
-- absent, and `String(err)` is its string form.
structure JsError where
  message : Option String
  str : String
deriving DecidableEq

-- `err.message || String(err)`: JS truthiness makes both an absent and an
-- empty message fall back to the string form.
def errMessage (e : JsError) : String :=
  match e.message with
  | some m => if m = "" then e.str else m
  | none => e.str

-- Outcome of one invocation of the external compiler inside `renderLatex`:
-- on success the pipeline assembles the final srcdoc string (document tree
-- plus the attached KaTeX stylesheet, latex.js stylesheet and style reset);
-- `artifact` is that assembled string.  The compiler itself is external.
inductive CompileResult where
  | ok (artifact : String)
  | err (e : JsError)
deriving DecidableEq

-- The preview column's DOM state: the iframe srcdoc and the error box
-- (text content plus whether the `hidden` class is present).
structure PreviewState where
  frameSrcdoc : String
  errorText : String
  errorHidden : Bool
deriving DecidableEq

-- The tail of `renderLatex` once the compiler has returned: on success set
-- the iframe and clear/hide the error box; on failure show the error text
-- and leave the iframe (the previous artifact) untouched.
def applyRender (ps : PreviewState) (r : CompileResult) : PreviewState :=
  match r with
  | CompileResult.ok artifact => { frameSrcdoc := artifact, errorText := "", errorHidden := true }
  | CompileResult.err e => { ps with errorText := errMessage e, errorHidden := false }

-- `renderLatex` never touches `files`, `currentFileId`, the editor buffer
-- or localStorage; it only rewrites the preview DOM.
def renderLatex (st : AppState) (ps : PreviewState) (r : CompileResult) :
    AppState × PreviewState :=
  (st, applyRender ps r)

-- The live render result read off the preview DOM: the error box being
-- visible means the last render attempt failed.
inductive RenderResult where
  | success (artifact : String)
  | failure (message : String)
deriving DecidableEq

def liveResult (ps : PreviewState) : RenderResult :=
  if ps.errorHidden then RenderResult.success ps.frameSrcdoc else RenderResult.failure ps.errorText

-- ── Render pipeline: overlapping in-flight compiles ──────────────────

-- `renderLatex` is `async`: between the timer firing (which captures the
-- source) and the result being applied it awaits the latex.js import and
-- the compile.  Several invocations can therefore be in flight at once,
-- and their results land in arbitrary completion order.  The code applies
-- each result as soon as it lands, with no re-check of currency.
structure AsyncRender where
  preview : PreviewState
  inflight : List String
deriving DecidableEq

inductive REvent where
  | start (src : String)
  | finish (src : String) (r : CompileResult)
deriving DecidableEq

def stepAsync (st : AsyncRender) (e : REvent) : AsyncRender :=
  match e with
  | REvent.start src => { st with inflight := st.inflight ++ [src] }
  | REvent.finish src r =>
    if src ∈ st.inflight then
      { preview := applyRender st.preview r, inflight := st.inflight.erase src }
    else st

def initPreview : PreviewState := { frameSrcdoc := "", errorText := "", errorHidden := true }

def runAsync (es : List REvent) : AsyncRender :=
  es.foldl stepAsync { preview := initPreview, inflight := [] }

-- ── File tree grouping (src/main.js lines 276-315) ───────────────────

-- `(file.folder || '').trim()`.
def trimFolder (f : File) : String := jsTrim (f.folder.getD "")

-- `if (!folders[folder]) folders[folder] = []` followed by
-- `folders[folder].push(file)`, with JS property-lookup semantics.  The
-- association list holds the object's own properties in insertion
-- (first-occurrence) order; an own property shadows the prototype and the
-- file is appended to its array.  A key absent from the object but naming
-- an `Object.prototype` member reads as the inherited truthy member, so
-- the array initialization is skipped and `.push` on the inherited member
-- throws a TypeError — modelled as `none`.  Otherwise the key reads as
-- `undefined` (falsy) and a fresh one-element bucket is appended.
def addToFolders : List (String × List File) → String → File →
    Option (List (String × List File))
  | [], k, f => if isProtoKey k then none else some [(k, [f])]
  | (k0, fs0) :: rest, k, f =>
    if k0 = k then some ((k0, fs0 ++ [f]) :: rest)
    else (addToFolders rest k f).map (fun bs => (k0, fs0) :: bs)

-- The body of the grouping loop of `renderFileTree`.
def groupStep (acc : List File × List (String × List File)) (f : File) :
    Option (List File × List (String × List File)) :=
  if trimFolder f = "" then some (acc.1 ++ [f], acc.2)
  else (addToFolders acc.2 (trimFolder f) f).map (fun bs => (acc.1, bs))

-- The grouping loop; `none` when an iteration throws a TypeError.
def groupFilesGo (acc : List File × List (String × List File)) :
    List File → Option (List File × List (String × List File))
  | [] => some acc
  | f :: rest =>
    match groupStep acc f with
    | none => none
    | some acc2 => groupFilesGo acc2 rest

def groupFiles (files : List File) :
    Option (List File × List (String × List File)) :=
  groupFilesGo ([], []) files

-- The non-throwing path of one grouping iteration's bucket update, as a
-- pure association-list insertion: what `folders[folder].push(file)`
-- computes when the folder name is an own key or a fresh non-prototype
-- key.  Used to state what the loop computes when it does not throw.
def insertBucket : List (String × List File) → String → File → List (String × List File)
  | [], k, f => [(k, [f])]
  | (k0, fs0) :: rest, k, f =>
    if k0 = k then (k0, fs0 ++ [f]) :: rest
    else (k0, fs0) :: insertBucket rest k f

-- One grouping iteration on the non-throwing path.
def groupAccum (acc : List File × List (String × List File)) (f : File) :
    List File × List (String × List File) :=
  if trimFolder f = "" then (acc.1 ++ [f], acc.2)
  else (acc.1, insertBucket acc.2 (trimFolder f) f)

-- `Object.keys(folders).sort()`: the folder buckets reordered so their
-- (distinct) keys are in lexicographic order.  Insertion sort; since the
-- keys are distinct and the order is total, any comparison sort produces
-- this same list.
def insertPair (p : String × List File) : List (String × List File) → List (String × List File)
  | [] => [p]
  | q :: rest => if p.1 ≤ q.1 then p :: q :: rest else q :: insertPair p rest

def sortBuckets : List (String × List File) → List (String × List File)
  | [] => []
  | p :: rest => insertPair p (sortBuckets rest)

-- The data `renderFileTree` displays, or `none` when the grouping loop
-- throws a TypeError: the root-level files in iteration order, then the
-- folder buckets sorted alphabetically by folder name.
def renderFileTree (files : List File) :
    Option (List File × List (String × List File)) :=
  (groupFiles files).map (fun rb => (rb.1, sortBuckets rb.2))

-- Bucket lookup in the folders object.
def bucketOf (bs : List (String × List File)) (k : String) : List File :=
  match bs.find? (fun q => q.1 == k) with
  | some q => q.2
  | none => []

-- ── Basic lemmas: storage writes do not touch the in-memory state ────

theorem saveFiles_files (st : AppState) : (saveFiles st).files = st.files := rfl

theorem saveFiles_currentFileId (st : AppState) :
    (saveFiles st).currentFileId = st.currentFileId := rfl

theorem saveFiles_editor (st : AppState) : (saveFiles st).editor = st.editor := rfl

theorem saveCurrentId_files (st : AppState) : (saveCurrentId st).files = st.files := by
  unfold saveCurrentId
  split <;> first | rfl | (split <;> rfl)

theorem saveCurrentId_currentFileId (st : AppState) :
    (saveCurrentId st).currentFileId = st.currentFileId := by
  unfold saveCurrentId
  split <;> first | rfl | (split <;> rfl)

theorem saveCurrentId_editor (st : AppState) : (saveCurrentId st).editor = st.editor := by
  unfold saveCurrentId
  split <;> first | rfl | (split <;> rfl)

-- ── Lemmas about findFile and updateFirst ────────────────────────────

theorem findFile_nil (id : String) : findFile [] id = none := rfl

theorem findFile_id {fs : List File} {id : String} {f : File}
    (h : findFile fs id = some f) : f.id = id := by
  have := List.find?_some h
  simpa using this

theorem findFile_mem {fs : List File} {id : String} {f : File}
    (h : findFile fs id = some f) : f ∈ fs :=
  List.mem_of_find?_eq_some h

-- Looking a file up after an in-place content update of the first record
-- with id `idu`: the record found for `idu` carries the new content, every
-- other lookup is unchanged.
theorem findFile_updateFirst (fs : List File) (idu idq c : String) :
    findFile (updateFirst fs idu c) idq =
      if idq = idu then (findFile fs idq).map (fun f => { f with content := c })
      else findFile fs idq := by
  induction fs with
  | nil => simp [findFile, updateFirst]
  | cons f rest ih =>
    by_cases h1 : f.id = idu
    · by_cases h2 : idq = idu
      · subst h2
        simp [findFile, updateFirst, h1, List.find?_cons, beq_iff_eq]
      · have h3 : f.id ≠ idq := by
          intro hh
          exact h2 (hh.symm.trans h1)
        have h4 : idu ≠ idq := by
          intro hh
          exact h2 hh.symm
        simp [findFile, updateFirst, h1, h2, List.find?_cons, beq_iff_eq, h3, h4]
    · by_cases h3 : f.id = idq
      · have h2 : idq ≠ idu := by
          intro hh
          exact h1 (h3.trans hh)
        simp [findFile, updateFirst, h1, h2, List.find?_cons, beq_iff_eq, h3]
      · simp only [findFile, updateFirst, if_neg h1] at ih ⊢
        by_cases h2 : idq = idu <;>
          simp_all [List.find?_cons, beq_iff_eq, h3]

theorem findFile_updateFirst_isSome (fs : List File) (idu idq c : String) :
    (findFile (updateFirst fs idu c) idq).isSome = (findFile fs idq).isSome := by
  rw [findFile_updateFirst]
  split <;> simp [Option.isSome_map']

theorem updateFirst_length (fs : List File) (id c : String) :
    (updateFirst fs id c).length = fs.length := by
  induction fs with
  | nil => rfl
  | cons f rest ih => by_cases h : f.id = id <;> simp [updateFirst, h, ih]

-- ── Lemmas about flushCurrent and openFile ───────────────────────────

theorem flushCurrent_currentFileId (st : AppState) :
    (flushCurrent st).currentFileId = st.currentFileId := by
  unfold flushCurrent
  split
  · rfl
  · split
    · rfl
    · split <;> rfl

theorem flushCurrent_editor (st : AppState) : (flushCurrent st).editor = st.editor := by
  unfold flushCurrent
  split
  · rfl
  · split
    · rfl
    · split <;> rfl

theorem flushCurrent_of_none {st : AppState} (h : st.currentFileId = none) :
    flushCurrent st = st := by
  unfold flushCurrent
  rw [h]

theorem flushCurrent_of_empty {st : AppState} (h : st.currentFileId = some "") :
    flushCurrent st = st := by
  unfold flushCurrent
  rw [h]
  simp

theorem flushCurrent_of_current {st : AppState} {cid : String} {f : File}
    (h : st.currentFileId = some cid) (hne : cid ≠ "")
    (hf : findFile st.files cid = some f) :
    flushCurrent st = saveFiles { st with files := updateFirst st.files cid st.editor } := by
  unfold flushCurrent
  rw [h]
  simp [hne, hf]

-- A flush never makes a document appear or disappear from the index.
theorem findFile_isSome_flushCurrent (st : AppState) (q : String) :
    (findFile (flushCurrent st).files q).isSome = (findFile st.files q).isSome := by
  unfold flushCurrent
  split
  · rfl
  · split
    · rfl
    · split
      · rw [saveFiles_files]
        exact findFile_updateFirst_isSome _ _ _ _
      · rfl

theorem openFile_of_none {st : AppState} {id : String}
    (h : findFile (flushCurrent st).files id = none) :
    openFile st id = flushCurrent st := by
  unfold openFile
  simp only [h]

theorem openFile_of_found {st : AppState} {id : String} {f : File}
    (h : findFile (flushCurrent st).files id = some f) :
    openFile st id =
      { saveCurrentId { flushCurrent st with currentFileId := some f.id } with
        editor := f.content } := by
  unfold openFile
  simp only [h]

theorem openFile_files_of_found {st : AppState} {id : String} {f : File}
    (h : findFile (flushCurrent st).files id = some f) :
    (openFile st id).files = (flushCurrent st).files := by
  rw [openFile_of_found h]
  show (saveCurrentId _).files = _
  rw [saveCurrentId_files]

theorem openFile_currentFileId_of_found {st : AppState} {id : String} {f : File}
    (h : findFile (flushCurrent st).files id = some f) :
    (openFile st id).currentFileId = some f.id := by
  rw [openFile_of_found h]
  show (saveCurrentId _).currentFileId = _
  rw [saveCurrentId_currentFileId]

theorem openFile_editor_of_found {st : AppState} {id : String} {f : File}
    (h : findFile (flushCurrent st).files id = some f) :
    (openFile st id).editor = f.content := by
  rw [openFile_of_found h]

-- ── Claim C3 ─────────────────────────────────────────────────────────

/-- Claim C3 is violated by the code (code bug): `renderLatex` applies an
in-flight compile result unconditionally when it lands, with no re-check that
the originating request is still current.  In this trace, the render for
`srcA` is started first, a newer render for `srcB` starts while it is still
in flight, `srcB`'s result lands (the preview shows `artB`), and then
`srcA`'s stale result lands and overwrites the newer result. -/
theorem c3_stale_overwrite :
    liveResult (runAsync [REvent.start "srcA", REvent.start "srcB",
      REvent.finish "srcB" (CompileResult.ok "artB")]).preview =
      RenderResult.success "artB" ∧
    liveResult (runAsync [REvent.start "srcA", REvent.start "srcB",
      REvent.finish "srcB" (CompileResult.ok "artB"),
      REvent.finish "srcA" (CompileResult.ok "artA")]).preview =
      RenderResult.success "artA" := by
  decide

-- ── Claim C4 ─────────────────────────────────────────────────────────

/-- Claim C4, corrected: opening a missing id raises no exception and leaves
the session's current id and the editor surface unchanged, but it is not a
complete no-op — before the lookup, `openFile` flushes the current document's
editor content (the whole call equals `flushCurrent`, which can rewrite the
current document's stored content and persist). -/
theorem c4_missing_id_flushes (st : AppState) (id : String)
    (h : findFile st.files id = none) :
    openFile st id = flushCurrent st ∧
    (openFile st id).currentFileId = st.currentFileId ∧
    (openFile st id).editor = st.editor := by
  have h2 : findFile (flushCurrent st).files id = none := by
    cases hfc : findFile (flushCurrent st).files id with
    | none => rfl
    | some f =>
      have hs := findFile_isSome_flushCurrent st id
      rw [hfc, h] at hs
      simp at hs
  have e1 := openFile_of_none h2
  exact ⟨e1, by rw [e1, flushCurrent_currentFileId],
    by rw [e1, flushCurrent_editor]⟩

/-- Claim C4, counterexample to the claim as stated: with document `a` current
and a pending (un-auto-saved) edit in the editor, `openFile "zz"` for the
missing id `"zz"` changes document `a`'s content (and the persisted store):
it is not a complete no-op. -/
theorem c4_counterexample :
    findFile ([⟨"a", "doc", some "", "old"⟩] : List File) "zz" = none ∧
    (openFile ⟨[⟨"a", "doc", some "", "old"⟩], some "a", "edited", ⟨true, none, none⟩⟩ "zz").files =
      [⟨"a", "doc", some "", "edited"⟩] ∧
    (openFile ⟨[⟨"a", "doc", some "", "old"⟩], some "a", "edited", ⟨true, none, none⟩⟩ "zz").files ≠
      [⟨"a", "doc", some "", "old"⟩] := by
  decide

/-- Witness for `c4_missing_id_flushes` at a concrete input. -/
theorem c4_witness :
    findFile (⟨[⟨"a", "doc", some "", "old"⟩], none, "", ⟨true, none, none⟩⟩ : AppState).files "zz" = none ∧
    openFile ⟨[⟨"a", "doc", some "", "old"⟩], none, "", ⟨true, none, none⟩⟩ "zz" =
      flushCurrent ⟨[⟨"a", "doc", some "", "old"⟩], none, "", ⟨true, none, none⟩⟩ :=
  ⟨by decide, (c4_missing_id_flushes _ "zz" (by decide)).1⟩

-- ── Claim C5 ─────────────────────────────────────────────────────────

/-- Claim C5, amended: `loadFiles` never throws and a corrupted/unparseable
files blob yields an empty document list; but the current id is loaded
independently from its own record, and is `none` exactly when that record is
absent or empty — a corrupted files blob alone does not force it to `none`. -/
theorem c5_corrupted_load (s : Storage) (h : s.filesBlob = some Blob.bad) :
    (loadFiles s).1 = [] ∧
    ((loadFiles s).2 = none ↔ s.currentBlob = none ∨ s.currentBlob = some "") := by
  refine ⟨by simp [loadFiles, h], ?_⟩
  unfold loadFiles
  cases s.currentBlob with
  | none => simp
  | some id =>
    by_cases he : id = "" <;> simp [he]

/-- Claim C5, counterexample to the claim as stated: a corrupted files blob
together with an intact current-id record loads an empty document list but a
non-`none` (dangling) current id. -/
theorem c5_counterexample :
    (loadFiles ⟨true, some Blob.bad, some "abc"⟩).1 = [] ∧
    (loadFiles ⟨true, some Blob.bad, some "abc"⟩).2 ≠ none := by
  decide

/-- Witness for `c5_corrupted_load` at a concrete input. -/
theorem c5_witness :
    (⟨true, some Blob.bad, some "xyz"⟩ : Storage).filesBlob = some Blob.bad ∧
    (loadFiles ⟨true, some Blob.bad, some "xyz"⟩).1 = [] :=
  ⟨rfl, (c5_corrupted_load _ rfl).1⟩

-- ── Claim C6 ─────────────────────────────────────────────────────────

/-- Claim C6: when the backing medium rejects writes, `saveFiles` (saveAll)
and `saveCurrentId` return normally (the failure is swallowed) and the whole
in-memory state — in particular the document collection and every `find`
result — is exactly what it was before the attempted save. -/
theorem c6_saves_nonfatal (st : AppState) (h : st.storage.writable = false) :
    saveFiles st = st ∧ saveCurrentId st = st ∧
    (saveFiles st).files = st.files ∧
    (∀ id, findFile (saveFiles st).files id = findFile st.files id) ∧
    (saveCurrentId st).files = st.files ∧
    (∀ id, findFile (saveCurrentId st).files id = findFile st.files id) := by
  have h1 : saveFiles st = st := by
    simp [saveFiles, Storage.setFilesBlob, h]
  have h2 : saveCurrentId st = st := by
    unfold saveCurrentId
    cases hc : st.currentFileId with
    | none =>
      simp [Storage.removeCurrentBlob, h]
      rw [← hc]
    | some id =>
      by_cases he : id = ""
      · subst he
        simp [Storage.removeCurrentBlob, h]
        rw [← hc]
      · simp [he, Storage.setCurrentBlob, h]
        rw [← hc]
  exact ⟨h1, h2, by rw [h1], fun id => by rw [h1], by rw [h2], fun id => by rw [h2]⟩

/-- Witness for `c6_saves_nonfatal` at a concrete input. -/
theorem c6_witness :
    (⟨[⟨"a", "n", some "", "c"⟩], some "a", "e", ⟨false, none, none⟩⟩ : AppState).storage.writable = false ∧
    saveFiles ⟨[⟨"a", "n", some "", "c"⟩], some "a", "e", ⟨false, none, none⟩⟩ =
      ⟨[⟨"a", "n", some "", "c"⟩], some "a", "e", ⟨false, none, none⟩⟩ :=
  ⟨rfl, (c6_saves_nonfatal _ rfl).1⟩

-- ── Claim C8 ─────────────────────────────────────────────────────────

/-- Claim C8: a failed compiler invocation leaves the app state (documents
and persisted store) untouched and makes the live render result a `Failure`
carrying `err.message || String(err)` — the raised error's message, or its
string form when no (non-empty) message is available; any subsequent
successful render fully replaces the failure as the live result. -/
theorem c8_failure_result (st : AppState) (ps : PreviewState) (e : JsError)
    (st2 : AppState) (ps2 : PreviewState) (a : String) :
    (renderLatex st ps (CompileResult.err e)).1 = st ∧
    liveResult (renderLatex st ps (CompileResult.err e)).2 =
      RenderResult.failure (errMessage e) ∧
    liveResult (renderLatex st2 ps2 (CompileResult.ok a)).2 =
      RenderResult.success a :=
  ⟨rfl, rfl, rfl⟩

-- ── Claim C10 ────────────────────────────────────────────────────────

/-- Claim C10: while no document is current, any sequence of editor changes
whose auto-saves fire leaves the document collection, the current-id
reference and the persisted storage completely unchanged — the edits live
only in the editor buffer. -/
theorem c10_autosave_noop (st : AppState) (h : st.currentFileId = none)
    (srcs : List String) :
    (srcs.foldl editStep st).files = st.files ∧
    (srcs.foldl editStep st).storage = st.storage ∧
    (srcs.foldl editStep st).currentFileId = none := by
  induction srcs generalizing st with
  | nil => exact ⟨rfl, rfl, h⟩
  | cons s rest ih =>
    have hstep : editStep st s = { st with editor := s } := by
      simp [editStep, autoSave, h]
    have := ih { st with editor := s } h
    simpa [List.foldl_cons, hstep] using this

/-- Witness for `c10_autosave_noop` at a concrete input. -/
theorem c10_witness :
    (⟨[⟨"a", "n", some "", "c"⟩], none, "", ⟨true, none, none⟩⟩ : AppState).currentFileId = none ∧
    (["x", "y"].foldl editStep ⟨[⟨"a", "n", some "", "c"⟩], none, "", ⟨true, none, none⟩⟩).files =
      (⟨[⟨"a", "n", some "", "c"⟩], none, "", ⟨true, none, none⟩⟩ : AppState).files :=
  ⟨rfl, (c10_autosave_noop _ rfl ["x", "y"]).1⟩

-- ── Claim C1 ─────────────────────────────────────────────────────────

-- Core of the flush-on-switch argument: from any state whose current
-- document is `A` (a non-empty id present in the index) and whose editor
-- buffer holds `T`, switching to `B` and back to `A` leaves `A`'s stored
-- content and the editor buffer equal to `T`.
theorem switch_back_core (st2 : AppState) (A B T : String)
    (h2cur : st2.currentFileId = some A) (h2ed : st2.editor = T)
    (hA2 : (findFile st2.files A).isSome) (hB2 : (findFile st2.files B).isSome)
    (hAne : A ≠ "") :
    (findFile (openFile (openFile st2 B) A).files A).map File.content = some T ∧
    (openFile (openFile st2 B) A).editor = T := by
  obtain ⟨fA2, hfA2⟩ := Option.isSome_iff_exists.mp hA2
  have hflush2 := flushCurrent_of_current h2cur hAne hfA2
  have hflush2files : (flushCurrent st2).files = updateFirst st2.files A T := by
    rw [hflush2]
    show updateFirst st2.files A st2.editor = _
    rw [h2ed]
  have hA3 : findFile (flushCurrent st2).files A = some { fA2 with content := T } := by
    rw [hflush2files, findFile_updateFirst]
    simp [hfA2]
  have hB3iso : (findFile (flushCurrent st2).files B).isSome := by
    rw [hflush2files, findFile_updateFirst_isSome]
    exact hB2
  obtain ⟨fB3, hfB3⟩ := Option.isSome_iff_exists.mp hB3iso
  have hfB3id := findFile_id hfB3
  have h3files : (openFile st2 B).files = updateFirst st2.files A T := by
    rw [openFile_files_of_found hfB3, hflush2files]
  have h3cur : (openFile st2 B).currentFileId = some B := by
    rw [openFile_currentFileId_of_found hfB3, hfB3id]
  have h3ed : (openFile st2 B).editor = fB3.content := openFile_editor_of_found hfB3
  have hA3' : findFile (openFile st2 B).files A = some { fA2 with content := T } := by
    rw [h3files, ← hflush2files]
    exact hA3
  have key : ∃ g, findFile (flushCurrent (openFile st2 B)).files A = some g ∧
      g.content = T := by
    by_cases hBe : B = ""
    · have heq : flushCurrent (openFile st2 B) = openFile st2 B :=
        flushCurrent_of_empty (by rw [h3cur, hBe])
      exact ⟨_, by rw [heq]; exact hA3', rfl⟩
    · have hfB3' : findFile (openFile st2 B).files B = some fB3 := by
        rw [h3files, ← hflush2files]
        exact hfB3
      have hflush3 := flushCurrent_of_current h3cur hBe hfB3'
      have hflush3files : (flushCurrent (openFile st2 B)).files =
          updateFirst (openFile st2 B).files B (openFile st2 B).editor := by
        rw [hflush3]
        rfl
      by_cases hAB : A = B
      · subst hAB
        have hfeq : fB3 = { fA2 with content := T } := by
          rw [hfB3'] at hA3'
          exact Option.some.inj hA3'
        refine ⟨{ fA2 with content := (openFile st2 A).editor }, ?_, ?_⟩
        · rw [hflush3files, findFile_updateFirst, if_pos rfl, hA3']
          rfl
        · show (openFile st2 A).editor = T
          rw [h3ed, hfeq]
      · refine ⟨{ fA2 with content := T }, ?_, rfl⟩
        rw [hflush3files, findFile_updateFirst, if_neg hAB]
        exact hA3'
  obtain ⟨g, hg, hgT⟩ := key
  constructor
  · rw [openFile_files_of_found hg, hg]
    simp [hgT]
  · rw [openFile_editor_of_found hg, hgT]

/-- Claim C1, amended (the claim as stated fails only for a document whose
id is the empty string, where the JS truthiness guard `if (currentFileId)`
skips the flush): for documents `A` and `B` existing in the store with `A`'s
id non-empty, the sequence `openFile A`, edit the buffer to `T`, `openFile
B`, `openFile A` leaves `A`'s stored content equal to `T` and loads `T` back
into the editor — switching away synchronously flushed the pending edit
even though no auto-save had fired. -/
theorem c1_flush_on_switch (st : AppState) (A B T : String)
    (hA : (findFile st.files A).isSome) (hB : (findFile st.files B).isSome)
    (hAne : A ≠ "") :
    (findFile (openFile (openFile { openFile st A with editor := T } B) A).files A).map
        File.content = some T ∧
    (openFile (openFile { openFile st A with editor := T } B) A).editor = T := by
  obtain ⟨fA1, hfA1⟩ : ∃ f, findFile (flushCurrent st).files A = some f :=
    Option.isSome_iff_exists.mp (by rw [findFile_isSome_flushCurrent]; exact hA)
  have hfA1id : fA1.id = A := findFile_id hfA1
  have h1files : (openFile st A).files = (flushCurrent st).files :=
    openFile_files_of_found hfA1
  refine switch_back_core { openFile st A with editor := T } A B T ?_ rfl ?_ ?_ hAne
  · show (openFile st A).currentFileId = some A
    rw [openFile_currentFileId_of_found hfA1, hfA1id]
  · show (findFile (openFile st A).files A).isSome
    rw [h1files, findFile_isSome_flushCurrent]
    exact hA
  · show (findFile (openFile st A).files B).isSome
    rw [h1files, findFile_isSome_flushCurrent]
    exact hB

/-- Claim C1, counterexample to the claim as stated: a stored document whose
id is the empty string.  Opening it, editing to `"T"` and switching to `"b"`
loses the edit (`if (currentFileId)` is falsy for the empty id, so nothing is
flushed), and re-opening it restores the stale content `"old"`. -/
theorem c1_counterexample :
    (findFile (⟨[⟨"", "f1", some "", "old"⟩, ⟨"b", "f2", some "", "bc"⟩],
        none, "init", ⟨true, none, none⟩⟩ : AppState).files "").isSome ∧
    (findFile (⟨[⟨"", "f1", some "", "old"⟩, ⟨"b", "f2", some "", "bc"⟩],
        none, "init", ⟨true, none, none⟩⟩ : AppState).files "b").isSome ∧
    ¬ ((findFile (openFile (openFile
          { openFile (⟨[⟨"", "f1", some "", "old"⟩, ⟨"b", "f2", some "", "bc"⟩],
              none, "init", ⟨true, none, none⟩⟩ : AppState) "" with
            editor := "T" } "b") "").files "").map File.content = some "T" ∧
        (openFile (openFile
          { openFile (⟨[⟨"", "f1", some "", "old"⟩, ⟨"b", "f2", some "", "bc"⟩],
              none, "init", ⟨true, none, none⟩⟩ : AppState) "" with
            editor := "T" } "b") "").editor = "T") := by
  decide

/-- Witness for `c1_flush_on_switch` at a concrete input. -/
theorem c1_witness :
    ((findFile (⟨[⟨"a", "A", some "", "ca"⟩, ⟨"b", "B", some "", "cb"⟩],
        none, "", ⟨true, none, none⟩⟩ : AppState).files "a").isSome ∧
     (findFile (⟨[⟨"a", "A", some "", "ca"⟩, ⟨"b", "B", some "", "cb"⟩],
        none, "", ⟨true, none, none⟩⟩ : AppState).files "b").isSome ∧
     ("a" : String) ≠ "") ∧
    (openFile (openFile
        { openFile (⟨[⟨"a", "A", some "", "ca"⟩, ⟨"b", "B", some "", "cb"⟩],
            none, "", ⟨true, none, none⟩⟩ : AppState) "a" with
          editor := "hello" } "b") "a").editor = "hello" :=
  ⟨⟨by decide, by decide, by decide⟩,
    (c1_flush_on_switch ⟨[⟨"a", "A", some "", "ca"⟩, ⟨"b", "B", some "", "cb"⟩],
        none, "", ⟨true, none, none⟩⟩ "a" "b" "hello"
      (by decide) (by decide) (by decide)).2⟩

-- ── Claim C7 ─────────────────────────────────────────────────────────

theorem findFile_cons (f : File) (fs : List File) (id : String) :
    findFile (f :: fs) id = if f.id = id then some f else findFile fs id := by
  by_cases h : f.id = id <;> simp [findFile, List.find?_cons, beq_iff_eq, h]

theorem findFile_append_fresh {fs : List File} {id : String} (x : File)
    (hfresh : ∀ f ∈ fs, f.id ≠ id) (hx : x.id = id) :
    findFile (fs ++ [x]) id = some x := by
  induction fs with
  | nil => rw [List.nil_append, findFile_cons, if_pos hx]
  | cons f rest ih =>
    have hf : f.id ≠ id := hfresh f (List.mem_cons_self _ _)
    rw [List.cons_append, findFile_cons, if_neg hf]
    exact ih fun g hg => hfresh g (List.mem_cons_of_mem _ hg)

theorem updateFirst_append_ne {fs : List File} {x : File} {id : String} (c : String)
    (hx : x.id ≠ id) :
    updateFirst (fs ++ [x]) id c = updateFirst fs id c ++ [x] := by
  induction fs with
  | nil => simp [updateFirst, hx]
  | cons f rest ih => by_cases h : f.id = id <;> simp [updateFirst, h, ih]

theorem updateFirst_map_id (fs : List File) (i c : String) :
    (updateFirst fs i c).map File.id = fs.map File.id := by
  induction fs with
  | nil => rfl
  | cons f rest ih => by_cases h : f.id = i <;> simp [updateFirst, h, ih]

theorem fresh_updateFirst {fs : List File} {i c nid : String}
    (hfresh : ∀ f ∈ fs, f.id ≠ nid) : ∀ f ∈ updateFirst fs i c, f.id ≠ nid := by
  intro f hf
  have hmem : f.id ∈ (updateFirst fs i c).map File.id := List.mem_map_of_mem _ hf
  rw [updateFirst_map_id] at hmem
  obtain ⟨g, hg, hgid⟩ := List.mem_map.mp hmem
  rw [← hgid]
  exact hfresh g hg

theorem flushCurrent_of_notfound {st : AppState} {cid : String}
    (h : st.currentFileId = some cid) (hne : cid ≠ "")
    (hf : findFile st.files cid = none) :
    flushCurrent st = st := by
  unfold flushCurrent
  rw [h]
  simp [hne, hf]

/-- Claim C7, amended: provided the generated id is fresh (it collides with
no existing document id and is not the session's dangling current-id
reference) and the resolved template value is a string — the registry entry
for the key, or the blank default for an unknown key that does not name an
`Object.prototype` member (for a prototype-named key the JS lookup keeps
the inherited truthy non-string member, so no document of the claimed form
is created) — `createFile` appends exactly one document, and an immediate
`find` of the new id returns a document whose name is the trimmed requested
name (or `"Untitled"` when the trimmed name is empty), whose folder is the
trimmed requested folder, and whose content is that resolved template
string; the new document becomes current and its content is loaded into the
editor. -/
theorem c7_create_find (st : AppState) (newId name folder templateKey tpl : String)
    (hfresh : ∀ f ∈ st.files, f.id ≠ newId)
    (hcur : st.currentFileId ≠ some newId)
    (htpl : resolveTemplate templateKey = TemplateValue.str tpl) :
    ∃ st2,
      createFile st newId name folder templateKey = some st2 ∧
      findFile st2.files newId =
        some ⟨newId, if jsTrim name = "" then "Untitled" else jsTrim name,
          some (jsTrim folder), tpl⟩ ∧
      st2.currentFileId = some newId ∧
      st2.editor = tpl ∧
      st2.files.length = st.files.length + 1 ∧
      st2.files.getLast? =
        some ⟨newId, if jsTrim name = "" then "Untitled" else jsTrim name,
          some (jsTrim folder), tpl⟩ := by
  set nf : File := ⟨newId, if jsTrim name = "" then "Untitled" else jsTrim name,
    some (jsTrim folder), tpl⟩ with hnf
  set st1 : AppState := saveFiles { st with files := st.files ++ [nf] } with hst1
  have hcf : createFile st newId name folder templateKey = some (openFile st1 newId) := by
    simp only [createFile, htpl]
  have base1 : findFile st1.files newId = some nf := by
    show findFile (st.files ++ [nf]) newId = some nf
    exact findFile_append_fresh nf hfresh rfl
  have hfl : findFile (flushCurrent st1).files newId = some nf ∧
      (flushCurrent st1).files.length = st.files.length + 1 ∧
      (flushCurrent st1).files.getLast? = some nf := by
    cases hc : st.currentFileId with
    | none =>
      have heq : flushCurrent st1 = st1 := flushCurrent_of_none hc
      rw [heq]
      exact ⟨base1, by simp [hst1, saveFiles], List.getLast?_concat _⟩
    | some cid =>
      by_cases hce : cid = ""
      · subst hce
        have heq : flushCurrent st1 = st1 := flushCurrent_of_empty hc
        rw [heq]
        exact ⟨base1, by simp [hst1, saveFiles], List.getLast?_concat _⟩
      · have hcidne : cid ≠ newId := fun hh => hcur (by rw [hc, hh])
        cases hfc : findFile st1.files cid with
        | none =>
          have heq : flushCurrent st1 = st1 := flushCurrent_of_notfound hc hce hfc
          rw [heq]
          exact ⟨base1, by simp [hst1, saveFiles], List.getLast?_concat _⟩
        | some f =>
          have hflush := flushCurrent_of_current
            (show st1.currentFileId = some cid from hc) hce hfc
          have hfiles : (flushCurrent st1).files =
              updateFirst st.files cid st.editor ++ [nf] := by
            rw [hflush]
            show updateFirst (st.files ++ [nf]) cid st.editor = _
            exact updateFirst_append_ne _ fun hh => hcidne hh.symm
          refine ⟨?_, ?_, ?_⟩
          · rw [hfiles]
            exact findFile_append_fresh nf (fresh_updateFirst hfresh) rfl
          · rw [hfiles]
            simp [List.length_append, updateFirst_length]
          · rw [hfiles]
            exact List.getLast?_concat _
  refine ⟨openFile st1 newId, hcf, ?_, ?_, ?_, ?_, ?_⟩
  · rw [openFile_files_of_found hfl.1]
    exact hfl.1
  · rw [openFile_currentFileId_of_found hfl.1]
  · rw [openFile_editor_of_found hfl.1]
  · rw [openFile_files_of_found hfl.1]
    exact hfl.2.1
  · rw [openFile_files_of_found hfl.1]
    exact hfl.2.2

/-- Claim C7, counterexample to the claim as stated: `createFile` does not
store the name and folder exactly as requested — the blank name `"  "` is
replaced by `"Untitled"` and the folder `" Notes "` is trimmed to
`"Notes"`.  Moreover, for an unknown key naming an `Object.prototype`
member (`"constructor"`), the resolved content is the inherited non-string
member rather than the designated default template, so no document of the
claimed form is created at all. -/
theorem c7_counterexample :
    ((createFile ⟨[], none, "", ⟨true, none, none⟩⟩ "id1" "  " " Notes " "blank").map
      (fun st2 => ((findFile st2.files "id1").map File.name,
        (findFile st2.files "id1").map File.folder))) =
      some (some "Untitled", some (some "Notes")) ∧
    ("Untitled" : String) ≠ "  " ∧ (some "Notes" : Option String) ≠ some " Notes " ∧
    resolveTemplate "constructor" = TemplateValue.protoValue "constructor" ∧
    createFile ⟨[], none, "", ⟨true, none, none⟩⟩ "id2" "Doc" "" "constructor" = none := by
  decide

set_option maxRecDepth 8192 in
/-- Witness for `c7_create_find` at a concrete input. -/
theorem c7_witness :
    ((∀ f ∈ ([] : List File), f.id ≠ "id9") ∧
      (⟨[], none, "", ⟨true, none, none⟩⟩ : AppState).currentFileId ≠ some "id9" ∧
      resolveTemplate "math" = TemplateValue.str TEMPLATE_math) ∧
    (∃ st2,
      createFile ⟨[], none, "", ⟨true, none, none⟩⟩ "id9" "Doc" "F" "math" = some st2 ∧
      findFile st2.files "id9" =
        some ⟨"id9", if jsTrim "Doc" = "" then "Untitled" else jsTrim "Doc",
          some (jsTrim "F"), TEMPLATE_math⟩ ∧
      st2.currentFileId = some "id9" ∧
      st2.editor = TEMPLATE_math ∧
      st2.files.length = ([] : List File).length + 1 ∧
      st2.files.getLast? =
        some ⟨"id9", if jsTrim "Doc" = "" then "Untitled" else jsTrim "Doc",
          some (jsTrim "F"), TEMPLATE_math⟩) :=
  ⟨⟨by simp, by decide, by decide⟩,
    c7_create_find ⟨[], none, "", ⟨true, none, none⟩⟩ "id9" "Doc" "F" "math" TEMPLATE_math
      (by simp) (by decide) (by decide)⟩

-- ── Claim C2 ─────────────────────────────────────────────────────────

-- During a burst of calls each arriving before the pending 450 ms deadline,
-- the pending timeout is always cleared before it can fire: nothing is
-- compiled and the timer always holds the latest call's source.
theorem runSched_burst (cs : List (Nat × String)) :
    ∀ (t : Nat) (s : String) (acc : List String),
      List.Chain (fun a b => a.1 ≤ b.1 ∧ b.1 < a.1 + DEBOUNCE_MS) (t, s) cs →
      runSched ⟨some (t + DEBOUNCE_MS, s), acc⟩ cs =
        ⟨some ((lastCall (t, s) cs).1 + DEBOUNCE_MS, (lastCall (t, s) cs).2), acc⟩ := by
  induction cs with
  | nil =>
    intro t s acc _
    rfl
  | cons c rest ih =>
    intro t s acc h
    rw [List.chain_cons] at h
    obtain ⟨⟨h1, h2⟩, h3⟩ := h
    have hfire : fireDue ⟨some (t + DEBOUNCE_MS, s), acc⟩ c.1 =
        ⟨some (t + DEBOUNCE_MS, s), acc⟩ := by
      simp [fireDue, Nat.not_le.mpr h2]
    show runSched (scheduleRender ⟨some (t + DEBOUNCE_MS, s), acc⟩ c.1 c.2) rest = _
    rw [scheduleRender, hfire]
    have := ih c.1 c.2 acc h3
    simpa [lastCall] using this

/-- Claim C2: for a burst of `scheduleRender` calls in which every call
arrives less than 450 ms after the previous one, none of the superseded
sources is ever compiled (the compiled list stays empty and the only pending
timeout carries the last source, due a full quiet period after the last
call); once the quiet period elapses, exactly the last call's source is
compiled, once. -/
theorem c2_debounce (c0 : Nat × String) (cs : List (Nat × String))
    (h : List.Chain (fun a b => a.1 ≤ b.1 ∧ b.1 < a.1 + DEBOUNCE_MS) c0 cs) :
    runSched initSched (c0 :: cs) =
      ⟨some ((lastCall c0 cs).1 + DEBOUNCE_MS, (lastCall c0 cs).2), []⟩ ∧
    (finishSched (runSched initSched (c0 :: cs))).compiled = [(lastCall c0 cs).2] := by
  have h0 : runSched initSched (c0 :: cs) =
      runSched ⟨some (c0.1 + DEBOUNCE_MS, c0.2), []⟩ cs := rfl
  have h1 := runSched_burst cs c0.1 c0.2 [] h
  constructor
  · rw [h0]
    exact h1
  · rw [h0, h1]
    rfl

/-- Witness for `c2_debounce` at a concrete input: three calls at 0 ms,
100 ms and 200 ms; only `"c"` is compiled. -/
theorem c2_witness :
    List.Chain (fun a b : Nat × String => a.1 ≤ b.1 ∧ b.1 < a.1 + DEBOUNCE_MS)
      (0, "a") [(100, "b"), (200, "c")] ∧
    (finishSched (runSched initSched [(0, "a"), (100, "b"), (200, "c")])).compiled =
      [(lastCall (0, "a") [(100, "b"), (200, "c")]).2] := by
  have hch : List.Chain (fun a b : Nat × String => a.1 ≤ b.1 ∧ b.1 < a.1 + DEBOUNCE_MS)
      (0, "a") [(100, "b"), (200, "c")] :=
    List.Chain.cons ⟨by decide, by decide⟩
      (List.Chain.cons ⟨by decide, by decide⟩ List.Chain.nil)
  exact ⟨hch, (c2_debounce _ _ hch).2⟩

-- ── Claim C9 ─────────────────────────────────────────────────────────

theorem bucketOf_cons (k0 : String) (fs0 : List File)
    (rest : List (String × List File)) (k : String) :
    bucketOf ((k0, fs0) :: rest) k = if k0 = k then fs0 else bucketOf rest k := by
  by_cases h : k0 = k <;> simp [bucketOf, List.find?_cons, beq_iff_eq, h]

theorem bucketOf_insertBucket (bs : List (String × List File)) (k : String) (f : File)
    (k' : String) :
    bucketOf (insertBucket bs k f) k' =
      if k' = k then bucketOf bs k' ++ [f] else bucketOf bs k' := by
  induction bs with
  | nil =>
    rw [show insertBucket [] k f = [(k, [f])] from rfl, bucketOf_cons]
    by_cases h : k' = k
    · rw [if_pos h.symm, if_pos h]
      rfl
    · rw [if_neg fun hh => h hh.symm, if_neg h]
  | cons q rest ih =>
    obtain ⟨k0, fs0⟩ := q
    by_cases h0 : k0 = k
    · subst h0
      rw [show insertBucket ((k0, fs0) :: rest) k0 f = (k0, fs0 ++ [f]) :: rest from by
        simp [insertBucket]]
      by_cases h' : k' = k0
      · subst h'
        simp [bucketOf_cons]
      · simp [bucketOf_cons, h', Ne.symm h']
    · rw [show insertBucket ((k0, fs0) :: rest) k f = (k0, fs0) :: insertBucket rest k f from by
        simp [insertBucket, h0]]
      by_cases h' : k0 = k'
      · subst h'
        simp [bucketOf_cons, h0]
      · simp [bucketOf_cons, h', ih]

theorem keys_insertBucket (bs : List (String × List File)) (k : String) (f : File) :
    (insertBucket bs k f).map Prod.fst =
      if k ∈ bs.map Prod.fst then bs.map Prod.fst else bs.map Prod.fst ++ [k] := by
  induction bs with
  | nil => simp [insertBucket]
  | cons q rest ih =>
    obtain ⟨k0, fs0⟩ := q
    by_cases h : k0 = k
    · subst h
      simp [insertBucket]
    · by_cases hm : k ∈ rest.map Prod.fst <;>
        simp [insertBucket, h, ih, hm, Ne.symm h]

theorem nodup_keys_insertBucket (bs : List (String × List File)) (k : String) (f : File)
    (hnd : (bs.map Prod.fst).Nodup) :
    ((insertBucket bs k f).map Prod.fst).Nodup := by
  by_cases hm : k ∈ bs.map Prod.fst
  · rw [keys_insertBucket, if_pos hm]
    exact hnd
  · rw [keys_insertBucket, if_neg hm]
    simp [List.nodup_append, hnd, hm]

theorem nonblank_keys_insertBucket (bs : List (String × List File)) (k : String) (f : File)
    (hk : k ≠ "") (hb : ∀ k' ∈ bs.map Prod.fst, k' ≠ "") :
    ∀ k' ∈ (insertBucket bs k f).map Prod.fst, k' ≠ "" := by
  intro k' hk'
  rw [keys_insertBucket] at hk'
  by_cases hm : k ∈ bs.map Prod.fst
  · rw [if_pos hm] at hk'
    exact hb k' hk'
  · rw [if_neg hm] at hk'
    rcases List.mem_append.mp hk' with h | h
    · exact hb k' h
    · simp at h
      rw [h]
      exact hk

theorem foldl_groupAccum_root (files : List File) :
    ∀ (r : List File) (b : List (String × List File)),
      (files.foldl groupAccum (r, b)).1 = r ++ files.filter (fun f => trimFolder f == "") := by
  induction files with
  | nil =>
    intro r b
    simp
  | cons f rest ih =>
    intro r b
    rw [List.foldl_cons]
    by_cases h : trimFolder f = ""
    · rw [show groupAccum (r, b) f = (r ++ [f], b) from by simp [groupAccum, h]]
      rw [ih (r ++ [f]) b]
      simp [List.filter_cons, h]
    · rw [show groupAccum (r, b) f = (r, insertBucket b (trimFolder f) f) from by
        simp [groupAccum, h]]
      rw [ih r _]
      simp [List.filter_cons, h]

theorem foldl_groupAccum_bucket (files : List File) :
    ∀ (r : List File) (b : List (String × List File)) (k : String), k ≠ "" →
      bucketOf (files.foldl groupAccum (r, b)).2 k =
        bucketOf b k ++ files.filter (fun f => trimFolder f == k) := by
  induction files with
  | nil =>
    intro r b k _
    simp
  | cons f rest ih =>
    intro r b k hk
    rw [List.foldl_cons]
    by_cases h : trimFolder f = ""
    · rw [show groupAccum (r, b) f = (r ++ [f], b) from by simp [groupAccum, h]]
      rw [ih _ _ k hk]
      have hne : trimFolder f ≠ k := by
        rw [h]
        exact Ne.symm hk
      simp [List.filter_cons, hne]
    · rw [show groupAccum (r, b) f = (r, insertBucket b (trimFolder f) f) from by
        simp [groupAccum, h]]
      rw [ih _ _ k hk, bucketOf_insertBucket]
      by_cases hkf : k = trimFolder f
      · subst hkf
        simp [List.filter_cons]
      · have hne : trimFolder f ≠ k := fun hh => hkf hh.symm
        rw [if_neg hkf]
        simp [List.filter_cons, hne]

theorem foldl_groupAccum_keys_nodup (files : List File) :
    ∀ (r : List File) (b : List (String × List File)), (b.map Prod.fst).Nodup →
      (((files.foldl groupAccum (r, b)).2).map Prod.fst).Nodup := by
  induction files with
  | nil =>
    intro r b h
    exact h
  | cons f rest ih =>
    intro r b h
    rw [List.foldl_cons]
    by_cases hf : trimFolder f = ""
    · rw [show groupAccum (r, b) f = (r ++ [f], b) from by simp [groupAccum, hf]]
      exact ih _ _ h
    · rw [show groupAccum (r, b) f = (r, insertBucket b (trimFolder f) f) from by
        simp [groupAccum, hf]]
      exact ih _ _ (nodup_keys_insertBucket _ _ _ h)

theorem foldl_groupAccum_keys_nonblank (files : List File) :
    ∀ (r : List File) (b : List (String × List File)),
      (∀ k ∈ b.map Prod.fst, k ≠ "") →
      ∀ k ∈ ((files.foldl groupAccum (r, b)).2).map Prod.fst, k ≠ "" := by
  induction files with
  | nil =>
    intro r b h
    exact h
  | cons f rest ih =>
    intro r b h
    rw [List.foldl_cons]
    by_cases hf : trimFolder f = ""
    · rw [show groupAccum (r, b) f = (r ++ [f], b) from by simp [groupAccum, hf]]
      exact ih _ _ h
    · rw [show groupAccum (r, b) f = (r, insertBucket b (trimFolder f) f) from by
        simp [groupAccum, hf]]
      exact ih _ _ (nonblank_keys_insertBucket _ _ _ hf h)

theorem mem_eq_bucketOf {bs : List (String × List File)}
    (hnd : (bs.map Prod.fst).Nodup) {k : String} {fs : List File}
    (hmem : (k, fs) ∈ bs) :
    bucketOf bs k = fs := by
  induction bs with
  | nil => cases hmem
  | cons q rest ih =>
    obtain ⟨k0, fs0⟩ := q
    rw [List.map_cons, List.nodup_cons] at hnd
    rcases List.mem_cons.mp hmem with h | h
    · injection h with h1 h2
      subst h1
      subst h2
      rw [bucketOf_cons, if_pos rfl]
    · have hk0 : k0 ≠ k := by
        intro hh
        apply hnd.1
        have hmm : k ∈ rest.map Prod.fst := List.mem_map_of_mem Prod.fst h
        rw [hh]
        exact hmm
      rw [bucketOf_cons, if_neg hk0]
      exact ih hnd.2 h

theorem mem_insertPair {p q : String × List File} {l : List (String × List File)} :
    q ∈ insertPair p l ↔ q = p ∨ q ∈ l := by
  induction l with
  | nil => simp [insertPair]
  | cons x rest ih =>
    by_cases h : p.1 ≤ x.1
    · simp only [insertPair, if_pos h, List.mem_cons]
    · simp only [insertPair, if_neg h, List.mem_cons, ih]
      tauto

theorem pairwise_insertPair {p : String × List File} {l : List (String × List File)}
    (h : l.Pairwise (fun a b => a.1 ≤ b.1)) :
    (insertPair p l).Pairwise (fun a b => a.1 ≤ b.1) := by
  induction l with
  | nil => simp [insertPair]
  | cons x rest ih =>
    rw [List.pairwise_cons] at h
    obtain ⟨hx, hrest⟩ := h
    by_cases hle : p.1 ≤ x.1
    · simp only [insertPair, if_pos hle]
      refine List.Pairwise.cons ?_ (List.Pairwise.cons hx hrest)
      intro b hb
      rcases List.mem_cons.mp hb with rfl | hb
      · exact hle
      · exact le_trans hle (hx b hb)
    · simp only [insertPair, if_neg hle]
      refine List.Pairwise.cons ?_ (ih hrest)
      intro b hb
      rcases mem_insertPair.mp hb with rfl | hb
      · exact le_of_not_le hle
      · exact hx b hb

theorem insertPair_perm (p : String × List File) (l : List (String × List File)) :
    (insertPair p l).Perm (p :: l) := by
  induction l with
  | nil => simp [insertPair]
  | cons x rest ih =>
    by_cases h : p.1 ≤ x.1
    · simp only [insertPair, if_pos h]
      exact List.Perm.refl _
    · simp only [insertPair, if_neg h]
      exact (List.Perm.cons x ih).trans (List.Perm.swap p x rest)

theorem sortBuckets_perm (bs : List (String × List File)) :
    (sortBuckets bs).Perm bs := by
  induction bs with
  | nil => exact List.Perm.refl _
  | cons p rest ih =>
    simp only [sortBuckets]
    exact (insertPair_perm p (sortBuckets rest)).trans (List.Perm.cons p ih)

theorem sortBuckets_pairwise_le (bs : List (String × List File)) :
    (sortBuckets bs).Pairwise (fun a b => a.1 ≤ b.1) := by
  induction bs with
  | nil => simp [sortBuckets]
  | cons p rest ih =>
    simp only [sortBuckets]
    exact pairwise_insertPair ih

-- With duplicate-free keys, the lexicographically ≤-sorted bucket list is
-- strictly sorted.
theorem sortBuckets_pairwise_lt {bs : List (String × List File)}
    (hnd : (bs.map Prod.fst).Nodup) :
    (sortBuckets bs).Pairwise (fun a b => a.1 < b.1) := by
  have hle := sortBuckets_pairwise_le bs
  have hperm : ((sortBuckets bs).map Prod.fst).Perm (bs.map Prod.fst) :=
    (sortBuckets_perm bs).map _
  have hnd2 : ((sortBuckets bs).map Prod.fst).Nodup := hperm.nodup_iff.mpr hnd
  have hne : (sortBuckets bs).Pairwise (fun a b => a.1 ≠ b.1) := by
    rw [List.Nodup, List.pairwise_map] at hnd2
    exact hnd2
  exact (hle.and hne).imp fun hab => lt_of_le_of_ne hab.1 hab.2

-- Bridging lemmas: on the non-throwing path the grouping loop computes
-- exactly the pure fold of `groupAccum`.

theorem addToFolders_of_not_proto {k : String} (bs : List (String × List File)) (f : File)
    (hk : isProtoKey k = false) :
    addToFolders bs k f = some (insertBucket bs k f) := by
  induction bs with
  | nil => simp [addToFolders, insertBucket, hk]
  | cons q rest ih =>
    obtain ⟨k0, fs0⟩ := q
    by_cases h : k0 = k <;> simp [addToFolders, insertBucket, h, ih]

theorem groupFilesGo_of_safe (files : List File) :
    ∀ acc, (∀ f ∈ files, isProtoKey (trimFolder f) = false) →
      groupFilesGo acc files = some (files.foldl groupAccum acc) := by
  induction files with
  | nil =>
    intro acc _
    rfl
  | cons f rest ih =>
    intro acc h
    have hf : isProtoKey (trimFolder f) = false := h f (List.mem_cons_self _ _)
    have hstep : groupStep acc f = some (groupAccum acc f) := by
      by_cases hb : trimFolder f = "" <;>
        simp [groupStep, groupAccum, hb, addToFolders_of_not_proto _ _ hf]
    show groupFilesGo acc (f :: rest) = _
    rw [List.foldl_cons]
    simp only [groupFilesGo, hstep]
    exact ih _ fun g hg => h g (List.mem_cons_of_mem _ hg)

/-- Claim C9, amended: for every collection in which no trimmed folder name
is an `Object.prototype` property name, the file tree renders and its
grouping partitions the collection — documents with blank or absent folders
(empty or whitespace-only after trimming) appear at the root in original
relative order; every document with a non-blank folder lands in the bucket
named by its trimmed folder (so documents with exactly equal non-blank
folder strings share one bucket), each bucket being exactly the filter of
the collection by that folder (original order preserved); and buckets are
listed sorted strictly lexicographically by folder name.  For a collection
containing a prototype-named folder, the grouping loop instead throws a
TypeError (see the counterexample). -/
theorem c9_grouping (files : List File)
    (hsafe : ∀ f ∈ files, isProtoKey (trimFolder f) = false) :
    ∃ root buckets,
      renderFileTree files = some (root, buckets) ∧
      root = files.filter (fun f => trimFolder f == "") ∧
      (∀ kfs ∈ buckets, kfs.1 ≠ "" ∧
        kfs.2 = files.filter (fun f => trimFolder f == kfs.1)) ∧
      buckets.Pairwise (fun a b => a.1 < b.1) ∧
      (∀ f ∈ files, trimFolder f ≠ "" →
        ∃ kfs ∈ buckets, kfs.1 = trimFolder f ∧ f ∈ kfs.2) := by
  have hnd : (((files.foldl groupAccum ([], [])).2).map Prod.fst).Nodup :=
    foldl_groupAccum_keys_nodup files [] [] (by simp)
  have hnb : ∀ k ∈ ((files.foldl groupAccum ([], [])).2).map Prod.fst, k ≠ "" :=
    foldl_groupAccum_keys_nonblank files [] [] (by simp)
  have hbucket : ∀ k, k ≠ "" → bucketOf (files.foldl groupAccum ([], [])).2 k =
      files.filter (fun f => trimFolder f == k) := by
    intro k hk
    have hb := foldl_groupAccum_bucket files [] [] k hk
    rw [show bucketOf [] k = [] from rfl, List.nil_append] at hb
    exact hb
  refine ⟨(files.foldl groupAccum ([], [])).1, sortBuckets (files.foldl groupAccum ([], [])).2, ?_, ?_, ?_, ?_, ?_⟩
  · unfold renderFileTree groupFiles
    rw [groupFilesGo_of_safe files ([], []) hsafe]
    rfl
  · have hr := foldl_groupAccum_root files [] []
    rw [List.nil_append] at hr
    exact hr
  · intro kfs hkfs
    have hkfs2 : kfs ∈ (files.foldl groupAccum ([], [])).2 := ((sortBuckets_perm _).mem_iff).mp hkfs
    have hk1 : kfs.1 ∈ ((files.foldl groupAccum ([], [])).2).map Prod.fst :=
      List.mem_map_of_mem _ hkfs2
    have hkne : kfs.1 ≠ "" := hnb _ hk1
    refine ⟨hkne, ?_⟩
    have hb := mem_eq_bucketOf hnd
      (show (kfs.1, kfs.2) ∈ (files.foldl groupAccum ([], [])).2 from hkfs2)
    rw [hbucket _ hkne] at hb
    exact hb.symm
  · exact sortBuckets_pairwise_lt hnd
  · intro f hf hfne
    have hfin : f ∈ files.filter (fun f2 => trimFolder f2 == trimFolder f) := by
      simp [List.mem_filter, hf]
    rw [← hbucket _ hfne] at hfin
    cases hfind : ((files.foldl groupAccum ([], [])).2).find? (fun q => q.1 == trimFolder f) with
    | none =>
      simp only [bucketOf, hfind] at hfin
      cases hfin
    | some q =>
      have hqm : q ∈ (files.foldl groupAccum ([], [])).2 := List.mem_of_find?_eq_some hfind
      have hq1 : q.1 = trimFolder f := by
        have hp := List.find?_some hfind
        simpa using hp
      refine ⟨q, ((sortBuckets_perm _).mem_iff).mpr hqm, hq1, ?_⟩
      simp only [bucketOf, hfind] at hfin
      exact hfin

/-- Claim C9, counterexample to the claim as stated: a document whose folder
is `"constructor"`.  Reading `folders["constructor"]` yields the truthy
inherited `Object.prototype.constructor`, so the bucket initialization is
skipped and `.push` on the inherited member throws a TypeError — the tree
renderer produces no grouping at all for this collection, instead of the
partition the claim asserts. -/
theorem c9_counterexample :
    renderFileTree [⟨"1", "a", some "constructor", "x"⟩] = none ∧
    renderFileTree [⟨"2", "b", some " toString ", "y"⟩] = none := by
  decide

/-- Witness for `c9_grouping` at a concrete input. -/
theorem c9_witness :
    (∀ f ∈ [(⟨"1", "a", some "Notes", "x"⟩ : File), ⟨"2", "b", some "  ", "y"⟩],
      isProtoKey (trimFolder f) = false) ∧
    (∃ root buckets,
      renderFileTree [(⟨"1", "a", some "Notes", "x"⟩ : File), ⟨"2", "b", some "  ", "y"⟩] =
        some (root, buckets) ∧
      root = [(⟨"1", "a", some "Notes", "x"⟩ : File), ⟨"2", "b", some "  ", "y"⟩].filter
        (fun f => trimFolder f == "") ∧
      (∀ kfs ∈ buckets, kfs.1 ≠ "" ∧
        kfs.2 = [(⟨"1", "a", some "Notes", "x"⟩ : File), ⟨"2", "b", some "  ", "y"⟩].filter
          (fun f => trimFolder f == kfs.1)) ∧
      buckets.Pairwise (fun a b => a.1 < b.1) ∧
      (∀ f ∈ [(⟨"1", "a", some "Notes", "x"⟩ : File), ⟨"2", "b", some "  ", "y"⟩],
        trimFolder f ≠ "" →
        ∃ kfs ∈ buckets, kfs.1 = trimFolder f ∧ f ∈ kfs.2)) :=
  ⟨by decide, c9_grouping _ (by decide)⟩
